import Mathlib

/-!
Shallow embedding of `src/graph.ts` (du-factory-generator): the factory graph
of storage containers, industries (production units) and transfer units
(relays), together with its derived metrics.  TS `number` is modelled by `ℚ`;
`Infinity` by `⊤ : WithTop ℚ` (or an `Option` cap); a thrown exception by
`none : Option _`.  The external catalog (items.ts / recipes.ts) is a
parameter: items and recipes are abstract records, `findRecipe` is a partial
lookup, and `CONTAINERS_ASCENDING_BY_CAPACITY` is a list of capacity tiers.
-/

namespace DuFactory

/-- An item of the external catalog: identity, volume, and the ore
(raw/unlimited-supply) flag tested by the `isOre` type guard. -/
structure Item where
  id : ℕ
  volume : ℚ
  isOre : Bool
deriving DecidableEq

/-- An (item, quantity) pair as used for ingredients, byproducts and the
product of a recipe. -/
structure ItemQuantity where
  item : Item
  quantity : ℚ
deriving DecidableEq

/-- A recipe of the external catalog (recipes.ts): ingredients, byproducts,
one product and a processing time. -/
structure Recipe where
  ingredients : List ItemQuantity
  byproducts : List ItemQuantity
  product : ItemQuantity
  time : ℚ
deriving DecidableEq

/-- One capacity tier of `CONTAINERS_ASCENDING_BY_CAPACITY`. -/
structure ContainerElement where
  id : ℕ
  capacity : ℚ
deriving DecidableEq

/-- The external catalog consumed by graph.ts: `findRecipe` (which throws,
hence `Option`, when an item has no recipe) and the ascending list of
container capacity tiers. -/
structure Catalog where
  findRecipe : Item → Option Recipe
  containersAscendingByCapacity : List ContainerElement

/-- graph.ts line 17. -/
def MAX_CONTAINER_LINKS : ℕ := 10

/-- graph.ts line 20. -/
def MAX_INDUSTRY_LINKS : ℕ := 7

/-- Identifier of a `ContainerNode`. -/
abbrev CId := ℕ

/-- Identifier of a `TransferContainerNode`. -/
abbrev TCId := ℕ

/-- Identifier of an `IndustryNode`. -/
abbrev IId := ℕ

/-- Identifier of a `TransferNode`. -/
abbrev TId := ℕ

/-- A member of a container's producer/consumer set:
`IndustryNode | TransferNode`. -/
inductive UnitRef where
  | ind : IId → UnitRef
  | tr : TId → UnitRef
deriving DecidableEq

/-- A buffer reference: `ContainerNode | TransferContainerNode`. -/
inductive BufRef where
  | single : CId → BufRef
  | multi : TCId → BufRef
deriving DecidableEq

/-- State of one `ContainerNode` (graph.ts 28-48): held item, split
fraction, producer set and consumer set. -/
structure ContainerData where
  item : Item
  split : ℚ
  producers : Finset UnitRef
  consumers : Finset UnitRef
deriving DecidableEq

/-- State of one `TransferContainerNode` (graph.ts 186-195): allowed item
list, producing transfer units, consuming industries. -/
structure TransferContainerData where
  items : List Item
  producers : Finset TId
  consumers : Finset IId
deriving DecidableEq

/-- State of one `IndustryNode` (graph.ts 315-339): the recipe resolved at
construction, the input buffers and the optional output container. -/
structure IndustryData where
  recipe : Recipe
  inputs : Finset BufRef
  output : Option CId
deriving DecidableEq

/-- State of one `TransferNode` (graph.ts 409-457): moved item, input
containers and the optional output buffer. -/
structure TransferData where
  item : Item
  inputs : Finset CId
  output : Option BufRef
deriving DecidableEq

/-- The mutable factory graph (graph.ts 500-505): node collections plus the
per-node state as total maps from identifiers. -/
structure FactoryGraph where
  containers : Finset CId
  industries : Finset IId
  transferUnits : Finset TId
  transferContainers : Finset TCId
  temporaryContainers : Finset CId
  containerData : CId → ContainerData
  transferContainerData : TCId → TransferContainerData
  industryData : IId → IndustryData
  transferData : TId → TransferData

/-- `IndustryNode.item` (graph.ts 325-328): the recipe's product item. -/
def IndustryNode.item (g : FactoryGraph) (u : IId) : Item :=
  (g.industryData u).recipe.product.item

/-- The `item` read off a consumer reference, as `consumer.item` does in
graph.ts (the industry's product item, or the transfer unit's item). -/
def consumerItem (g : FactoryGraph) : UnitRef → Item
  | UnitRef.ind u => IndustryNode.item g u
  | UnitRef.tr t => (g.transferData t).item

/-- `ContainerNode.incomingLinkCount` (graph.ts 53-55). -/
def ContainerNode.incomingLinkCount (g : FactoryGraph) (c : CId) : ℕ :=
  (g.containerData c).producers.card

/-- `ContainerNode.outgoingLinkCount` (graph.ts 60-62). -/
def ContainerNode.outgoingLinkCount (g : FactoryGraph) (c : CId) : ℕ :=
  (g.containerData c).consumers.card

/-- `ContainerNode.isSplit` (graph.ts 141-143). -/
def ContainerNode.isSplit (g : FactoryGraph) (c : CId) : Bool :=
  decide ((g.containerData c).split ≠ 1)

/-- `ContainerNode.canAddIncomingLinks` (graph.ts 149-151). -/
def ContainerNode.canAddIncomingLinks (g : FactoryGraph) (c : CId) (count : ℕ) : Bool :=
  decide (ContainerNode.incomingLinkCount g c + count ≤ MAX_CONTAINER_LINKS)

/-- `ContainerNode.canAddOutgoingLinks` (graph.ts 157-178).  `none` models
the exception thrown by `findRecipe` on a non-ore item without a recipe.
The reserved count lives in `ℤ`: the source initialises it to the number of
byproducts and subtracts one inside the inner loop for every consumer whose
item matches the byproduct, so it can become negative. -/
def ContainerNode.canAddOutgoingLinks (cat : Catalog) (g : FactoryGraph)
    (c : CId) (count : ℕ) : Option Bool :=
  let cd := g.containerData c
  if ContainerNode.isSplit g c then some false
  else if cd.item.isOre then
    some (decide (ContainerNode.outgoingLinkCount g c + count ≤ MAX_CONTAINER_LINKS))
  else
    match cat.findRecipe cd.item with
    | none => none
    | some recipe =>
        let reservedByproductLinks : ℤ :=
          recipe.byproducts.foldl
            (fun reserved byproduct =>
              reserved -
                ((cd.consumers.filter fun consumer =>
                  consumerItem g consumer = byproduct.item).card : ℤ))
            (recipe.byproducts.length : ℤ)
        some (decide ((ContainerNode.outgoingLinkCount g c : ℤ) + count +
          reservedByproductLinks ≤ (MAX_CONTAINER_LINKS : ℤ)))

/-- `TransferContainerNode.incomingLinkCount` (graph.ts 200-202). -/
def TransferContainerNode.incomingLinkCount (g : FactoryGraph) (tc : TCId) : ℕ :=
  (g.transferContainerData tc).producers.card

/-- `TransferContainerNode.outgoingLinkCount` (graph.ts 207-209). -/
def TransferContainerNode.outgoingLinkCount (g : FactoryGraph) (tc : TCId) : ℕ :=
  (g.transferContainerData tc).consumers.card

/-- `TransferContainerNode.canAddIncomingLinks` (graph.ts 257-259). -/
def TransferContainerNode.canAddIncomingLinks (g : FactoryGraph) (tc : TCId)
    (count : ℕ) : Bool :=
  decide (TransferContainerNode.incomingLinkCount g tc + count ≤ MAX_CONTAINER_LINKS)

/-- `TransferContainerNode.canAddOutgoingLinks` (graph.ts 265-267). -/
def TransferContainerNode.canAddOutgoingLinks (g : FactoryGraph) (tc : TCId)
    (count : ℕ) : Bool :=
  decide (TransferContainerNode.outgoingLinkCount g tc + count ≤ MAX_CONTAINER_LINKS)

/-- `IndustryNode.incomingLinkCount` (graph.ts 333-335). -/
def IndustryNode.incomingLinkCount (g : FactoryGraph) (u : IId) : ℕ :=
  (g.industryData u).inputs.card

/-- `IndustryNode.canAddIncomingLinks` (graph.ts 396-398). -/
def IndustryNode.canAddIncomingLinks (g : FactoryGraph) (u : IId) (count : ℕ) : Bool :=
  decide (IndustryNode.incomingLinkCount g u + count ≤ MAX_INDUSTRY_LINKS)

/-- `TransferNode.incomingLinkCount` (graph.ts 421-423). -/
def TransferNode.incomingLinkCount (g : FactoryGraph) (t : TId) : ℕ :=
  (g.transferData t).inputs.card

/-- `TransferNode.canAddIncomingLinks` (graph.ts 484-486). -/
def TransferNode.canAddIncomingLinks (g : FactoryGraph) (t : TId) (count : ℕ) : Bool :=
  decide (TransferNode.incomingLinkCount g t + count ≤ MAX_INDUSTRY_LINKS)

/-- Sum of `f` over a finite set, propagating a thrown exception: a TS loop
that accumulates `f a` and may throw inside an iteration yields a value only
when every contribution does (`none` is absorbing, and the sum itself is
order-independent). -/
def optSum {α : Type} (s : Finset α) (f : α → Option ℚ) : Option ℚ :=
  if ∀ a ∈ s, (f a).isSome then some (∑ a ∈ s, (f a).getD 0) else none

/-- `optSum` analogue for a loop over a list. -/
def optSumL {α : Type} (l : List α) (f : α → Option ℚ) : Option ℚ :=
  if ∀ a ∈ l, (f a).isSome then some ((l.map fun a => (f a).getD 0).sum) else none

/-- `IndustryNode.getOutput` (graph.ts 366-375): fold over
`[...recipe.byproducts, recipe.product]` of the quantities matching the
queried item, divided by the recipe time.  `none` models the `findRecipe`
throw. -/
def IndustryNode.getOutput (cat : Catalog) (g : FactoryGraph) (u : IId)
    (item : Item) : Option ℚ :=
  match cat.findRecipe (IndustryNode.item g u) with
  | none => none
  | some recipe =>
      some ((recipe.byproducts ++ [recipe.product]).foldl
        (fun quantity produced =>
          if item = produced.item then quantity + produced.quantity else quantity) 0
        / recipe.time)

/-- `IndustryNode.getInput` (graph.ts 381-390). -/
def IndustryNode.getInput (cat : Catalog) (g : FactoryGraph) (u : IId)
    (item : Item) : Option ℚ :=
  match cat.findRecipe (IndustryNode.item g u) with
  | none => none
  | some recipe =>
      some (recipe.ingredients.foldl
        (fun quantity ingredient =>
          if ingredient.item = item then quantity + ingredient.quantity else quantity) 0
        / recipe.time)

/-- `TransferNode.transferRate` (graph.ts 415): `Infinity`, modelled as the
absent cap `none`. -/
def transferRate : Option ℚ := none

/-- `Math.min(consumptionRate, this.transferRate)` where the transfer rate
may be the absent (infinite) cap. -/
def minRate (consumptionRate : ℚ) : Option ℚ → ℚ
  | none => consumptionRate
  | some r => min consumptionRate r

/-- The unguarded division `outflowRate / inputs.size` of
`TransferNode.inflowRatePerContainer` (graph.ts 448-450): with an empty
input set the division by zero yields no meaningful value (`none`). -/
def inflowAux (outflow : Option ℚ) (n : ℕ) : Option ℚ :=
  outflow.bind fun q => if n = 0 then none else some (q / (n : ℚ))

/-- `TransferNode.outflowRate` (graph.ts 430-442): the minimum of the total
consumption rate at the output buffer and the transfer rate.  The source
recurses through `inflowRatePerContainer` of transfer consumers, so the
embedding takes a fuel argument; fuel 0 yields `none`. -/
def TransferNode.outflowRateF (cat : Catalog) (g : FactoryGraph) :
    ℕ → TId → Option ℚ
  | 0, _ => none
  | fuel + 1, t =>
      let td := g.transferData t
      let consumptionRate : Option ℚ :=
        match td.output with
        | none => some 0
        | some (BufRef.single c) =>
            optSum (g.containerData c).consumers fun consumer =>
              match consumer with
              | UnitRef.ind u => IndustryNode.getInput cat g u td.item
              | UnitRef.tr t2 =>
                  inflowAux (TransferNode.outflowRateF cat g fuel t2)
                    (g.transferData t2).inputs.card
        | some (BufRef.multi tc) =>
            optSum (g.transferContainerData tc).consumers fun u =>
              IndustryNode.getInput cat g u td.item
      consumptionRate.map fun rate => minRate rate transferRate

/-- `TransferNode.inflowRatePerContainer` (graph.ts 448-450):
`outflowRate / inputs.size` with the unguarded division. -/
def TransferNode.inflowRatePerContainerF (cat : Catalog) (g : FactoryGraph)
    (fuel : ℕ) (t : TId) : Option ℚ :=
  inflowAux (TransferNode.outflowRateF cat g fuel t) (g.transferData t).inputs.card

/-- `ContainerNode.ingress` (graph.ts 67-83): `some ⊤` is the infinite ore
ingress; a finite ingress sums industry producers' output rates and matching
transfer producers' outflow rates. -/
def ContainerNode.ingressF (cat : Catalog) (g : FactoryGraph) (fuel : ℕ)
    (c : CId) : Option (WithTop ℚ) :=
  let cd := g.containerData c
  if cd.item.isOre then some ⊤
  else
    (optSum cd.producers fun producer =>
      match producer with
      | UnitRef.ind u => IndustryNode.getOutput cat g u cd.item
      | UnitRef.tr t =>
          if (g.transferData t).item = cd.item
          then TransferNode.outflowRateF cat g fuel t
          else some 0).map fun q => (q : WithTop ℚ)

/-- `ContainerNode.egress` (graph.ts 88-100): industry consumers contribute
`split × getInput`, matching transfer consumers their per-container inflow
share. -/
def ContainerNode.egressF (cat : Catalog) (g : FactoryGraph) (fuel : ℕ)
    (c : CId) : Option ℚ :=
  let cd := g.containerData c
  optSum cd.consumers fun consumer =>
    match consumer with
    | UnitRef.ind u => (IndustryNode.getInput cat g u cd.item).map fun q => cd.split * q
    | UnitRef.tr t =>
        if (g.transferData t).item = cd.item
        then TransferNode.inflowRatePerContainerF cat g fuel t
        else some 0

/-- `ContainerNode.maintain` (graph.ts 105-119): transfer consumers are
skipped; each industry consumer adds its recipe's ingredient quantities that
match the held item; the total is scaled by the split fraction. -/
def ContainerNode.maintain (cat : Catalog) (g : FactoryGraph) (c : CId) :
    Option ℚ :=
  let cd := g.containerData c
  (optSum cd.consumers fun consumer =>
    match consumer with
    | UnitRef.tr _ => some 0
    | UnitRef.ind u =>
        (cat.findRecipe (IndustryNode.item g u)).map fun recipe =>
          recipe.ingredients.foldl
            (fun m ingredient =>
              if ingredient.item = cd.item then m + ingredient.quantity else m) 0
  ).map fun m => m * cd.split

/-- The tier-selection loop shared verbatim by `ContainerNode.container`
(graph.ts 129-135) and `TransferContainerNode.container` (graph.ts 244-249):
start from the first tier and overwrite the result with every tier whose
capacity covers the requirement. -/
def selectionLoop (tiers : List ContainerElement) (first : ContainerElement)
    (requiredCapacity : ℚ) : ContainerElement :=
  tiers.foldl
    (fun requiredContainer checkContainer =>
      if requiredCapacity ≤ checkContainer.capacity then checkContainer
      else requiredContainer)
    first

/-- `ContainerNode.container` (graph.ts 124-136): throws (`none`) when the
tier catalog is empty, before computing `maintain × volume` and scanning the
tiers. -/
def ContainerNode.containerQ (cat : Catalog) (g : FactoryGraph) (c : CId) :
    Option ContainerElement :=
  match cat.containersAscendingByCapacity with
  | [] => none
  | first :: rest =>
      (ContainerNode.maintain cat g c).map fun m =>
        selectionLoop (first :: rest) first (m * (g.containerData c).item.volume)

/-- The required capacity computed by `TransferContainerNode.container`
(graph.ts 239-243) from `TransferContainerNode.maintain` (graph.ts 214-230):
summing `quantity × volume` over the accumulated maintain map equals summing,
over the item list (with multiplicity), the matching ingredient quantities of
every industry consumer times that item's volume. -/
def TransferContainerNode.requiredCapacity (cat : Catalog) (g : FactoryGraph)
    (tc : TCId) : Option ℚ :=
  let d := g.transferContainerData tc
  optSumL d.items fun item =>
    (optSum d.consumers fun u =>
      (cat.findRecipe (IndustryNode.item g u)).map fun recipe =>
        recipe.ingredients.foldl
          (fun q ingredient =>
            if ingredient.item = item then q + ingredient.quantity else q) 0
    ).map fun q => q * item.volume

/-- `TransferContainerNode.container` (graph.ts 235-251): throws (`none`)
when the tier catalog is empty, then runs the same selection loop on the
summed required capacity. -/
def TransferContainerNode.containerQ (cat : Catalog) (g : FactoryGraph)
    (tc : TCId) : Option ContainerElement :=
  match cat.containersAscendingByCapacity with
  | [] => none
  | first :: rest =>
      (TransferContainerNode.requiredCapacity cat g tc).map fun r =>
        selectionLoop (first :: rest) first r

/-- `FactoryGraph.getTransferContainers` (graph.ts 637-648), exactly as
coded: keep the transfer containers holding at least one queried item, then
keep those for which some queried item is absent from the container's item
list. -/
def FactoryGraph.getTransferContainers (g : FactoryGraph) (items : Finset Item) :
    Finset TCId :=
  let step1 := g.transferContainers.filter fun tc =>
    ∃ item ∈ (g.transferContainerData tc).items, item ∈ items
  step1.filter fun tc =>
    ∃ item ∈ items, item ∉ (g.transferContainerData tc).items

/-- Replace the state of container `c`. -/
def setContainer (g : FactoryGraph) (c : CId) (d : ContainerData) : FactoryGraph :=
  { g with containerData := fun x => if x = c then d else g.containerData x }

/-- Replace the state of transfer container `tc`. -/
def setTransferContainer (g : FactoryGraph) (tc : TCId) (d : TransferContainerData) :
    FactoryGraph :=
  { g with transferContainerData := fun x => if x = tc then d else g.transferContainerData x }

/-- Replace the state of industry `u`. -/
def setIndustry (g : FactoryGraph) (u : IId) (d : IndustryData) : FactoryGraph :=
  { g with industryData := fun x => if x = u then d else g.industryData x }

/-- Replace the state of transfer unit `t`. -/
def setTransfer (g : FactoryGraph) (t : TId) (d : TransferData) : FactoryGraph :=
  { g with transferData := fun x => if x = t then d else g.transferData x }

/-- `IndustryNode.takeFrom` (graph.ts 345-348): add the buffer to the
industry's inputs and the industry to the buffer's consumers. -/
def IndustryNode.takeFrom (g : FactoryGraph) (u : IId) (b : BufRef) : FactoryGraph :=
  let g1 := setIndustry g u
    { g.industryData u with inputs := insert b (g.industryData u).inputs }
  match b with
  | BufRef.single c =>
      setContainer g1 c
        { g1.containerData c with
          consumers := insert (UnitRef.ind u) (g1.containerData c).consumers }
  | BufRef.multi tc =>
      setTransferContainer g1 tc
        { g1.transferContainerData tc with
          consumers := insert u (g1.transferContainerData tc).consumers }

/-- `IndustryNode.outputTo` (graph.ts 354-360): detach the previous output's
producer edge, if any, then attach the new one. -/
def IndustryNode.outputTo (g : FactoryGraph) (u : IId) (c : CId) : FactoryGraph :=
  let g1 :=
    match (g.industryData u).output with
    | some old =>
        setContainer g old
          { g.containerData old with
            producers := (g.containerData old).producers.erase (UnitRef.ind u) }
    | none => g
  let g2 := setIndustry g1 u { g1.industryData u with output := some c }
  setContainer g2 c
    { g2.containerData c with
      producers := insert (UnitRef.ind u) (g2.containerData c).producers }

/-- `TransferNode.takeFrom` (graph.ts 463-466). -/
def TransferNode.takeFrom (g : FactoryGraph) (t : TId) (c : CId) : FactoryGraph :=
  let g1 := setTransfer g t
    { g.transferData t with inputs := insert c (g.transferData t).inputs }
  setContainer g1 c
    { g1.containerData c with
      consumers := insert (UnitRef.tr t) (g1.containerData c).consumers }

/-- `TransferNode.outputTo` (graph.ts 472-478): the output may be a single-
or a multi-item buffer. -/
def TransferNode.outputTo (g : FactoryGraph) (t : TId) (b : BufRef) : FactoryGraph :=
  let g1 :=
    match (g.transferData t).output with
    | some (BufRef.single old) =>
        setContainer g old
          { g.containerData old with
            producers := (g.containerData old).producers.erase (UnitRef.tr t) }
    | some (BufRef.multi old) =>
        setTransferContainer g old
          { g.transferContainerData old with
            producers := (g.transferContainerData old).producers.erase t }
    | none => g
  let g2 := setTransfer g1 t { g1.transferData t with output := some b }
  match b with
  | BufRef.single c =>
      setContainer g2 c
        { g2.containerData c with
          producers := insert (UnitRef.tr t) (g2.containerData c).producers }
  | BufRef.multi tc =>
      setTransferContainer g2 tc
        { g2.transferContainerData tc with
          producers := insert t (g2.transferContainerData tc).producers }

/-- One wiring operation of the public API (graph.ts 345-360, 463-478). -/
inductive WireOp where
  | indTakeFrom : IId → BufRef → WireOp
  | indOutputTo : IId → CId → WireOp
  | trTakeFrom : TId → CId → WireOp
  | trOutputTo : TId → BufRef → WireOp
deriving DecidableEq

/-- Apply one wiring operation. -/
def applyOp (g : FactoryGraph) : WireOp → FactoryGraph
  | WireOp.indTakeFrom u b => IndustryNode.takeFrom g u b
  | WireOp.indOutputTo u c => IndustryNode.outputTo g u c
  | WireOp.trTakeFrom t c => TransferNode.takeFrom g t c
  | WireOp.trOutputTo t b => TransferNode.outputTo g t b

/-- Apply a sequence of wiring operations in order. -/
def applyOps (g : FactoryGraph) (ops : List WireOp) : FactoryGraph :=
  ops.foldl applyOp g

/-- A default item for the initial node states. -/
def defaultItem : Item := ⟨0, 0, false⟩

/-- The factory graph before any wiring: every adjacency set is empty and no
unit has an output. -/
def emptyFactory : FactoryGraph where
  containers := ∅
  industries := ∅
  transferUnits := ∅
  transferContainers := ∅
  temporaryContainers := ∅
  containerData := fun _ => ⟨defaultItem, 1, ∅, ∅⟩
  transferContainerData := fun _ => ⟨[], ∅, ∅⟩
  industryData := fun _ => ⟨⟨[], [], ⟨defaultItem, 0⟩, 1⟩, ∅, none⟩
  transferData := fun _ => ⟨defaultItem, ∅, none⟩

/-- Edge symmetry: each adjacency is recorded consistently at both
endpoints — a unit is among a buffer's producers iff that buffer is the
unit's current output, and among its consumers iff the buffer is in the
unit's input set. -/
def EdgeSymmetric (g : FactoryGraph) : Prop :=
  (∀ u c, UnitRef.ind u ∈ (g.containerData c).producers ↔
    (g.industryData u).output = some c) ∧
  (∀ t c, UnitRef.tr t ∈ (g.containerData c).producers ↔
    (g.transferData t).output = some (BufRef.single c)) ∧
  (∀ t tc, t ∈ (g.transferContainerData tc).producers ↔
    (g.transferData t).output = some (BufRef.multi tc)) ∧
  (∀ u c, UnitRef.ind u ∈ (g.containerData c).consumers ↔
    BufRef.single c ∈ (g.industryData u).inputs) ∧
  (∀ u tc, u ∈ (g.transferContainerData tc).consumers ↔
    BufRef.multi tc ∈ (g.industryData u).inputs) ∧
  (∀ t c, UnitRef.tr t ∈ (g.containerData c).consumers ↔
    c ∈ (g.transferData t).inputs)

/-! ### Concrete inputs used by counterexamples and witnesses -/

/-- A non-ore item of unit volume. -/
def itemA : Item := ⟨1, 1, false⟩

/-- A second non-ore item. -/
def itemB : Item := ⟨2, 1, false⟩

/-- A third non-ore item. -/
def itemC : Item := ⟨3, 1, false⟩

/-- The smaller capacity tier. -/
def tier0 : ContainerElement := ⟨0, 10⟩

/-- The larger capacity tier. -/
def tier1 : ContainerElement := ⟨1, 20⟩

/-- A recipe producing `itemA` with the single byproduct `itemB`. -/
def recipeA : Recipe := ⟨[], [⟨itemB, 1⟩], ⟨itemA, 1⟩, 1⟩

/-- A catalog resolving every item to `recipeA`, with a two-tier ascending
container list. -/
def catTwoTiers : Catalog :=
  { findRecipe := fun _ => some recipeA
    containersAscendingByCapacity := [tier0, tier1] }

/-- A graph whose containers hold `itemA` and have no consumers. -/
def gNoConsumers : FactoryGraph :=
  { emptyFactory with containerData := fun _ => ⟨itemA, 1, ∅, ∅⟩ }

/-! ### C6: split containers refuse outgoing links -/

/-- C6: for every storage node whose split fraction differs from 1 and every
n ≥ 1, `canAddOutgoingLinks(n)` returns false, whatever the consumer set or
the held item. -/
theorem claim_C6_split_forbids_outgoing (cat : Catalog) (g : FactoryGraph)
    (c : CId) (n : ℕ) (hsplit : (g.containerData c).split ≠ 1) (hn : 1 ≤ n) :
    ContainerNode.canAddOutgoingLinks cat g c n = some false := by
  unfold ContainerNode.canAddOutgoingLinks
  simp [ContainerNode.isSplit, hsplit]

/-- A graph whose container 0 is a split container (split fraction 1/2). -/
def gSplit : FactoryGraph :=
  { emptyFactory with
    containerData := fun _ => ⟨itemA, 1 / 2, ∅, {UnitRef.ind 0}⟩ }

/-- Witness for C6 at the concrete split container `gSplit`. -/
theorem claim_C6_witness :
    ContainerNode.canAddOutgoingLinks catTwoTiers gSplit 0 1 = some false :=
  claim_C6_split_forbids_outgoing catTwoTiers gSplit 0 1
    (by simp [gSplit, emptyFactory]) (by decide)

/-! ### C7: incoming-link limits -/

/-- C7: `canAddIncomingLinks(n)` accepts exactly when the resulting link
count stays within the structural limit — 10 for single- and multi-item
buffers, 7 for production and relay units; in particular the link reaching
the limit is accepted and the one beyond it is rejected. -/
theorem claim_C7_incoming_link_limits (g : FactoryGraph) (n : ℕ) :
    (∀ c, ContainerNode.canAddIncomingLinks g c n = true ↔
      ContainerNode.incomingLinkCount g c + n ≤ 10) ∧
    (∀ tc, TransferContainerNode.canAddIncomingLinks g tc n = true ↔
      TransferContainerNode.incomingLinkCount g tc + n ≤ 10) ∧
    (∀ u, IndustryNode.canAddIncomingLinks g u n = true ↔
      IndustryNode.incomingLinkCount g u + n ≤ 7) ∧
    (∀ t, TransferNode.canAddIncomingLinks g t n = true ↔
      TransferNode.incomingLinkCount g t + n ≤ 7) ∧
    (∀ c, ContainerNode.incomingLinkCount g c + n = 10 →
      ContainerNode.canAddIncomingLinks g c n = true) ∧
    (∀ c, ContainerNode.incomingLinkCount g c + n = 11 →
      ContainerNode.canAddIncomingLinks g c n = false) ∧
    (∀ u, IndustryNode.incomingLinkCount g u + n = 7 →
      IndustryNode.canAddIncomingLinks g u n = true) ∧
    (∀ u, IndustryNode.incomingLinkCount g u + n = 8 →
      IndustryNode.canAddIncomingLinks g u n = false) ∧
    (∀ t, TransferNode.incomingLinkCount g t + n = 7 →
      TransferNode.canAddIncomingLinks g t n = true) ∧
    (∀ t, TransferNode.incomingLinkCount g t + n = 8 →
      TransferNode.canAddIncomingLinks g t n = false) := by
  refine ⟨?_, ?_, ?_, ?_, ?_, ?_, ?_, ?_, ?_, ?_⟩ <;>
    intro x <;>
    simp [ContainerNode.canAddIncomingLinks, TransferContainerNode.canAddIncomingLinks,
      IndustryNode.canAddIncomingLinks, TransferNode.canAddIncomingLinks,
      MAX_CONTAINER_LINKS, MAX_INDUSTRY_LINKS] <;>
    omega

/-- A graph giving containers 0/1 nine and ten producers, and industries 0/1
six and seven inputs, and transfer units 0/1 six and seven inputs. -/
def gLinkLimits : FactoryGraph :=
  { emptyFactory with
    containerData := fun x =>
      if x = 0 then
        ⟨itemA, 1,
          {UnitRef.ind 0, UnitRef.ind 1, UnitRef.ind 2, UnitRef.ind 3, UnitRef.ind 4,
            UnitRef.ind 5, UnitRef.ind 6, UnitRef.ind 7, UnitRef.ind 8}, ∅⟩
      else
        ⟨itemA, 1,
          {UnitRef.ind 0, UnitRef.ind 1, UnitRef.ind 2, UnitRef.ind 3, UnitRef.ind 4,
            UnitRef.ind 5, UnitRef.ind 6, UnitRef.ind 7, UnitRef.ind 8,
            UnitRef.ind 9}, ∅⟩
    industryData := fun x =>
      if x = 0 then
        ⟨recipeA,
          {BufRef.single 0, BufRef.single 1, BufRef.single 2, BufRef.single 3,
            BufRef.single 4, BufRef.single 5}, none⟩
      else
        ⟨recipeA,
          {BufRef.single 0, BufRef.single 1, BufRef.single 2, BufRef.single 3,
            BufRef.single 4, BufRef.single 5, BufRef.single 6}, none⟩
    transferData := fun x =>
      if x = 0 then ⟨itemA, {0, 1, 2, 3, 4, 5}, none⟩
      else ⟨itemA, {0, 1, 2, 3, 4, 5, 6}, none⟩ }

/-- Witness for C7: the 10th container link and 7th unit link are accepted,
the 11th and 8th rejected, on the concrete graph `gLinkLimits`. -/
theorem claim_C7_witness :
    ContainerNode.canAddIncomingLinks gLinkLimits 0 1 = true ∧
    ContainerNode.canAddIncomingLinks gLinkLimits 1 1 = false ∧
    IndustryNode.canAddIncomingLinks gLinkLimits 0 1 = true ∧
    IndustryNode.canAddIncomingLinks gLinkLimits 1 1 = false ∧
    TransferNode.canAddIncomingLinks gLinkLimits 0 1 = true ∧
    TransferNode.canAddIncomingLinks gLinkLimits 1 1 = false :=
  ⟨(claim_C7_incoming_link_limits gLinkLimits 1).2.2.2.2.1 0 (by decide),
    (claim_C7_incoming_link_limits gLinkLimits 1).2.2.2.2.2.1 1 (by decide),
    (claim_C7_incoming_link_limits gLinkLimits 1).2.2.2.2.2.2.1 0 (by decide),
    (claim_C7_incoming_link_limits gLinkLimits 1).2.2.2.2.2.2.2.1 1 (by decide),
    (claim_C7_incoming_link_limits gLinkLimits 1).2.2.2.2.2.2.2.2.1 0 (by decide),
    (claim_C7_incoming_link_limits gLinkLimits 1).2.2.2.2.2.2.2.2.2 1 (by decide)⟩

/-! ### C8: production output rate -/

/-- The quantity fold of `getOutput`/`getInput` as an explicit filtered
sum. -/
theorem foldl_quantity_sum (i : Item) (l : List ItemQuantity) (a : ℚ) :
    l.foldl (fun acc p => if i = p.item then acc + p.quantity else acc) a =
      a + ((l.filter fun p => p.item = i).map ItemQuantity.quantity).sum := by
  induction l generalizing a with
  | nil => simp
  | cons p l ih =>
      by_cases hp : p.item = i
      · simp [List.foldl_cons, hp, ih, add_assoc]
      · have hp' : ¬i = p.item := fun h => hp h.symm
        simp [List.foldl_cons, hp, hp', ih]

/-- C8: for every production node and item, `getOutput` is the sum of the
recipe's product and byproduct quantities matching the item, divided by the
recipe time, and 0 when the item is neither the product nor a byproduct. -/
theorem claim_C8_output_rate (cat : Catalog) (g : FactoryGraph) (u : IId)
    (r : Recipe) (i : Item)
    (hr : cat.findRecipe (IndustryNode.item g u) = some r) :
    IndustryNode.getOutput cat g u i =
      some (((((r.byproducts ++ [r.product]).filter fun p => p.item = i).map
        ItemQuantity.quantity).sum) / r.time) ∧
    ((∀ p ∈ r.byproducts, p.item ≠ i) → r.product.item ≠ i →
      IndustryNode.getOutput cat g u i = some 0) := by
  have hmain : IndustryNode.getOutput cat g u i =
      some (((((r.byproducts ++ [r.product]).filter fun p => p.item = i).map
        ItemQuantity.quantity).sum) / r.time) := by
    unfold IndustryNode.getOutput
    rw [hr]
    dsimp only
    rw [foldl_quantity_sum, zero_add]
  refine ⟨hmain, fun hby hprod => ?_⟩
  rw [hmain]
  have hfilter : ((r.byproducts ++ [r.product]).filter fun p => p.item = i) = [] := by
    rw [List.filter_eq_nil_iff]
    intro p hp
    rcases List.mem_append.mp hp with hp | hp
    · simpa using hby p hp
    · simp only [List.mem_singleton] at hp
      subst hp
      simpa using hprod
  rw [hfilter]
  simp

/-- Witness for C8: with `recipeA` (product `itemA`, byproduct `itemB`),
the output rate of the unrelated `itemC` is 0. -/
theorem claim_C8_witness :
    IndustryNode.getOutput catTwoTiers emptyFactory 0 itemC = some 0 :=
  (claim_C8_output_rate catTwoTiers emptyFactory 0 recipeA itemC rfl).2
    (by decide) (by decide)

/-! ### C10: relay inflow per container -/

/-- C10: `inflowRatePerContainer` divides `outflowRate` by the number of
input buffers; the division is unguarded, so the undefined branch of the
embedded function is taken exactly when the input set is empty. -/
theorem claim_C10_inflow_per_container (cat : Catalog) (g : FactoryGraph)
    (fuel : ℕ) (t : TId) (q : ℚ)
    (hq : TransferNode.outflowRateF cat g fuel t = some q) :
    (TransferNode.inflowRatePerContainerF cat g fuel t = none ↔
      (g.transferData t).inputs = ∅) ∧
    ((g.transferData t).inputs ≠ ∅ →
      TransferNode.inflowRatePerContainerF cat g fuel t =
        some (q / ((g.transferData t).inputs.card : ℚ))) := by
  unfold TransferNode.inflowRatePerContainerF inflowAux
  rw [hq]
  constructor
  · simp [Option.bind_eq_none, Finset.card_eq_zero]
  · intro hne
    have hcard : (g.transferData t).inputs.card ≠ 0 := by
      simpa [Finset.card_eq_zero] using hne
    simp [hcard]

/-- A graph whose transfer unit 0 has one input buffer and no output. -/
def gOneInput : FactoryGraph :=
  { emptyFactory with transferData := fun _ => ⟨itemA, {0}, none⟩ }

/-- Witness for C10 at a relay with one input buffer. -/
theorem claim_C10_witness :
    TransferNode.inflowRatePerContainerF catTwoTiers gOneInput 1 0 =
      some ((0 : ℚ) / ((gOneInput.transferData 0).inputs.card : ℚ)) :=
  (claim_C10_inflow_per_container catTwoTiers gOneInput 1 0 0
      (by simp [TransferNode.outflowRateF, gOneInput, emptyFactory, minRate,
        transferRate])).2
    (by decide)

/-! ### C1: tier selection picks the last covering tier, not the smallest -/

/-- The scan-and-overwrite loop returns the last tier whenever that tier's
capacity covers the requirement, regardless of the accumulator. -/
theorem selectionLoop_eq_getLast (tiers : List ContainerElement)
    (first : ContainerElement) (req : ℚ) (hne : tiers ≠ [])
    (hlast : req ≤ (tiers.getLast hne).capacity) :
    selectionLoop tiers first req = tiers.getLast hne := by
  induction tiers generalizing first with
  | nil => exact absurd rfl hne
  | cons c l ih =>
      cases l with
      | nil =>
          simp only [List.getLast_singleton] at hlast
          simp [selectionLoop, hlast]
      | cons c2 l2 =>
          have hne2 : c2 :: l2 ≠ [] := List.cons_ne_nil c2 l2
          have hlast2 : req ≤ ((c2 :: l2).getLast hne2).capacity := by
            simpa [List.getLast_cons] using hlast
          have := ih (if req ≤ c.capacity then c else first) hne2 hlast2
          simpa [selectionLoop, List.getLast_cons] using this

/-- In a capacity-ascending tier list, any member's capacity is bounded by
the last tier's capacity. -/
theorem capacity_le_getLast (tiers : List ContainerElement)
    (hsort : tiers.Pairwise fun a b => a.capacity ≤ b.capacity)
    (t : ContainerElement) (ht : t ∈ tiers) (hne : tiers ≠ []) :
    t.capacity ≤ (tiers.getLast hne).capacity := by
  induction tiers with
  | nil => exact absurd rfl hne
  | cons c l ih =>
      cases l with
      | nil =>
          simp only [List.mem_singleton] at ht
          subst ht
          simp [List.getLast_singleton]
      | cons c2 l2 =>
          have hne2 : c2 :: l2 ≠ [] := List.cons_ne_nil c2 l2
          rw [List.getLast_cons hne2]
          rcases List.mem_cons.mp ht with h | h
          · subst h
            have hmem : (c2 :: l2).getLast hne2 ∈ c2 :: l2 := List.getLast_mem hne2
            exact (List.pairwise_cons.mp hsort).1 _ hmem
          · exact ih (List.pairwise_cons.mp hsort).2 h hne2

/-- C1 (amended): when the ascending tier catalog is non-empty and at least
one tier covers the required capacity, the `container` query of a storage
node — and of a multi-item storage node — returns the LAST (largest) tier of
the catalog, not the smallest covering one: the loop keeps overwriting its
result with every tier at or above the first sufficient one. -/
theorem claim_C1_container_is_last_tier (cat : Catalog) (g : FactoryGraph)
    (hsort : cat.containersAscendingByCapacity.Pairwise
      fun a b => a.capacity ≤ b.capacity) :
    (∀ c m, ContainerNode.maintain cat g c = some m →
      (∃ t ∈ cat.containersAscendingByCapacity,
        m * (g.containerData c).item.volume ≤ t.capacity) →
      ContainerNode.containerQ cat g c =
        cat.containersAscendingByCapacity.getLast?) ∧
    (∀ tc r, TransferContainerNode.requiredCapacity cat g tc = some r →
      (∃ t ∈ cat.containersAscendingByCapacity, r ≤ t.capacity) →
      TransferContainerNode.containerQ cat g tc =
        cat.containersAscendingByCapacity.getLast?) := by
  constructor
  · intro c m hm hex
    obtain ⟨t, ht, hcov⟩ := hex
    have hne : cat.containersAscendingByCapacity ≠ [] :=
      List.ne_nil_of_mem ht
    obtain ⟨first, rest, hl⟩ := List.exists_cons_of_ne_nil hne
    have hsort2 := hsort
    rw [hl] at hsort2 ht
    have h1 : ContainerNode.containerQ cat g c =
        some (selectionLoop (first :: rest) first
          (m * (g.containerData c).item.volume)) := by
      unfold ContainerNode.containerQ
      rw [hl, hm]
      rfl
    rw [h1, hl, List.getLast?_eq_getLast _ (List.cons_ne_nil first rest)]
    exact congrArg some (selectionLoop_eq_getLast _ _ _ _
      (le_trans hcov (capacity_le_getLast _ hsort2 t ht _)))
  · intro tc r hr hex
    obtain ⟨t, ht, hcov⟩ := hex
    have hne : cat.containersAscendingByCapacity ≠ [] :=
      List.ne_nil_of_mem ht
    obtain ⟨first, rest, hl⟩ := List.exists_cons_of_ne_nil hne
    have hsort2 := hsort
    rw [hl] at hsort2 ht
    have h1 : TransferContainerNode.containerQ cat g tc =
        some (selectionLoop (first :: rest) first r) := by
      unfold TransferContainerNode.containerQ
      rw [hl, hr]
      rfl
    rw [h1, hl, List.getLast?_eq_getLast _ (List.cons_ne_nil first rest)]
    exact congrArg some (selectionLoop_eq_getLast _ _ _ _
      (le_trans hcov (capacity_le_getLast _ hsort2 t ht _)))

/-- Counterexample to C1 as stated: with the ascending two-tier catalog
`[tier0 (capacity 10), tier1 (capacity 20)]` and a container requiring
capacity 0, the smallest covering tier is `tier0`, yet the query returns
`tier1`. -/
theorem claim_C1_counterexample :
    ContainerNode.containerQ catTwoTiers gNoConsumers 0 = some tier1 ∧
    tier0 ∈ catTwoTiers.containersAscendingByCapacity ∧
    ContainerNode.maintain catTwoTiers gNoConsumers 0 = some 0 ∧
    (0 : ℚ) * (gNoConsumers.containerData 0).item.volume ≤ tier0.capacity ∧
    tier0.capacity < tier1.capacity ∧ tier0 ≠ tier1 := by
  refine ⟨?_, by decide, ?_, ?_, by decide, by decide⟩
  · simp +decide [ContainerNode.containerQ, ContainerNode.maintain, optSum,
      gNoConsumers, catTwoTiers, emptyFactory, selectionLoop, itemA, tier0, tier1]
  · simp [ContainerNode.maintain, optSum, gNoConsumers, catTwoTiers, emptyFactory]
  · simp [gNoConsumers, emptyFactory, itemA, tier0]

/-- Witness for the amended C1 on the concrete two-tier catalog. -/
theorem claim_C1_witness :
    ContainerNode.containerQ catTwoTiers gNoConsumers 0 =
      catTwoTiers.containersAscendingByCapacity.getLast? :=
  (claim_C1_container_is_last_tier catTwoTiers gNoConsumers (by decide)).1 0 0
    (by simp [ContainerNode.maintain, optSum, gNoConsumers, catTwoTiers, emptyFactory])
    ⟨tier0, by decide, by simp [gNoConsumers, emptyFactory, itemA, tier0]⟩

/-! ### C2: getTransferContainers mismatches its exact-set contract -/

/-- A graph holding one transfer container with item list `[itemA, itemB]`. -/
def gOneTC : FactoryGraph :=
  { emptyFactory with
    transferContainers := {0}
    transferContainerData := fun _ => ⟨[itemA, itemB], ∅, ∅⟩ }

/-- C2 evaluated at its failing input: the multi-item buffer holding exactly
{itemA, itemB} is NOT returned for the query {itemA, itemB} (the claim says
it must be), while the superset query {itemA, itemB, itemC} does return it —
the second filter keeps a node precisely when some queried item is missing
from it, instead of discarding nodes holding an item outside the query. -/
theorem claim_C2_exact_query_excluded :
    (gOneTC.transferContainerData 0).items = [itemA, itemB] ∧
    0 ∈ gOneTC.transferContainers ∧
    FactoryGraph.getTransferContainers gOneTC {itemA, itemB} = ∅ ∧
    FactoryGraph.getTransferContainers gOneTC {itemA, itemB, itemC} = {0} := by
  decide

/-! ### C3: byproduct reservations released once per consumer, not once -/

/-- A graph whose container 0 holds `itemA` (whose recipe has the single
byproduct `itemB`) and already has TWO transfer-unit consumers of `itemB`. -/
def gTwoByproductConsumers : FactoryGraph :=
  { emptyFactory with
    containerData := fun _ => ⟨itemA, 1, ∅, {UnitRef.tr 0, UnitRef.tr 1}⟩
    transferData := fun _ => ⟨itemB, {0}, none⟩ }

/-- C3 evaluated at its failing input: every byproduct of `recipeA` already
has a consumer in the buffer, so the claim reserves 0 slots and demands
`canAddOutgoingLinks 9 = false` (2 + 9 + 0 > 10); but the code subtracts one
reservation PER matching consumer (two here, for one byproduct), yielding a
negative reserve and returning true — allowing an 11th outgoing link. -/
theorem claim_C3_per_consumer_release :
    ContainerNode.canAddOutgoingLinks catTwoTiers gTwoByproductConsumers 0 9 =
      some true ∧
    ContainerNode.outgoingLinkCount gTwoByproductConsumers 0 = 2 ∧
    (∀ b ∈ recipeA.byproducts,
      ∃ consumer ∈ (gTwoByproductConsumers.containerData 0).consumers,
        consumerItem gTwoByproductConsumers consumer = b.item) ∧
    MAX_CONTAINER_LINKS <
      ContainerNode.outgoingLinkCount gTwoByproductConsumers 0 + 9 := by
  decide


/-! ### C4 and C5: wiring symmetry -/

@[simp]
theorem setContainer_containerData (g : FactoryGraph) (c : CId) (d : ContainerData)
    (x : CId) : (setContainer g c d).containerData x = if x = c then d else g.containerData x :=
  rfl

@[simp]
theorem setContainer_transferContainerData (g : FactoryGraph) (c : CId)
    (d : ContainerData) (x : TCId) :
    (setContainer g c d).transferContainerData x = g.transferContainerData x :=
  rfl

@[simp]
theorem setContainer_industryData (g : FactoryGraph) (c : CId) (d : ContainerData)
    (x : IId) : (setContainer g c d).industryData x = g.industryData x :=
  rfl

@[simp]
theorem setContainer_transferData (g : FactoryGraph) (c : CId) (d : ContainerData)
    (x : TId) : (setContainer g c d).transferData x = g.transferData x :=
  rfl

@[simp]
theorem setTransferContainer_containerData (g : FactoryGraph) (tc : TCId)
    (d : TransferContainerData) (x : CId) :
    (setTransferContainer g tc d).containerData x = g.containerData x :=
  rfl

@[simp]
theorem setTransferContainer_transferContainerData (g : FactoryGraph) (tc : TCId)
    (d : TransferContainerData) (x : TCId) :
    (setTransferContainer g tc d).transferContainerData x =
      if x = tc then d else g.transferContainerData x :=
  rfl

@[simp]
theorem setTransferContainer_industryData (g : FactoryGraph) (tc : TCId)
    (d : TransferContainerData) (x : IId) :
    (setTransferContainer g tc d).industryData x = g.industryData x :=
  rfl

@[simp]
theorem setTransferContainer_transferData (g : FactoryGraph) (tc : TCId)
    (d : TransferContainerData) (x : TId) :
    (setTransferContainer g tc d).transferData x = g.transferData x :=
  rfl

@[simp]
theorem setIndustry_containerData (g : FactoryGraph) (u : IId) (d : IndustryData)
    (x : CId) : (setIndustry g u d).containerData x = g.containerData x :=
  rfl

@[simp]
theorem setIndustry_transferContainerData (g : FactoryGraph) (u : IId)
    (d : IndustryData) (x : TCId) :
    (setIndustry g u d).transferContainerData x = g.transferContainerData x :=
  rfl

@[simp]
theorem setIndustry_industryData (g : FactoryGraph) (u : IId) (d : IndustryData)
    (x : IId) : (setIndustry g u d).industryData x = if x = u then d else g.industryData x :=
  rfl

@[simp]
theorem setIndustry_transferData (g : FactoryGraph) (u : IId) (d : IndustryData)
    (x : TId) : (setIndustry g u d).transferData x = g.transferData x :=
  rfl

@[simp]
theorem setTransfer_containerData (g : FactoryGraph) (t : TId) (d : TransferData)
    (x : CId) : (setTransfer g t d).containerData x = g.containerData x :=
  rfl

@[simp]
theorem setTransfer_transferContainerData (g : FactoryGraph) (t : TId)
    (d : TransferData) (x : TCId) :
    (setTransfer g t d).transferContainerData x = g.transferContainerData x :=
  rfl

@[simp]
theorem setTransfer_industryData (g : FactoryGraph) (t : TId) (d : TransferData)
    (x : IId) : (setTransfer g t d).industryData x = g.industryData x :=
  rfl

@[simp]
theorem setTransfer_transferData (g : FactoryGraph) (t : TId) (d : TransferData)
    (x : TId) : (setTransfer g t d).transferData x = if x = t then d else g.transferData x :=
  rfl

/-- `takeFrom` on an industry preserves edge symmetry. -/
theorem edgeSymmetric_indTakeFrom (g : FactoryGraph) (u : IId) (b : BufRef)
    (h : EdgeSymmetric g) : EdgeSymmetric (IndustryNode.takeFrom g u b) := by
  obtain ⟨h1, h2, h3, h4, h5, h6⟩ := h
  cases b with
  | single c =>
      refine ⟨?_, ?_, ?_, ?_, ?_, ?_⟩ <;> intro a x <;>
        simp only [IndustryNode.takeFrom, setContainer_containerData,
          setContainer_transferContainerData, setContainer_industryData,
          setContainer_transferData, setIndustry_containerData,
          setIndustry_transferContainerData, setIndustry_industryData,
          setIndustry_transferData] <;>
        (try split_ifs) <;>
        (try simp_all [Finset.mem_insert, h1, h2, h3, h4, h5, h6]) <;>
        tauto
  | multi tc =>
      refine ⟨?_, ?_, ?_, ?_, ?_, ?_⟩ <;> intro a x <;>
        simp only [IndustryNode.takeFrom, setTransferContainer_containerData,
          setTransferContainer_transferContainerData,
          setTransferContainer_industryData, setTransferContainer_transferData,
          setIndustry_containerData, setIndustry_transferContainerData,
          setIndustry_industryData, setIndustry_transferData] <;>
        (try split_ifs) <;>
        (try simp_all [Finset.mem_insert, h1, h2, h3, h4, h5, h6]) <;>
        tauto

/-- `takeFrom` on a transfer unit preserves edge symmetry. -/
theorem edgeSymmetric_trTakeFrom (g : FactoryGraph) (t : TId) (c : CId)
    (h : EdgeSymmetric g) : EdgeSymmetric (TransferNode.takeFrom g t c) := by
  obtain ⟨h1, h2, h3, h4, h5, h6⟩ := h
  refine ⟨?_, ?_, ?_, ?_, ?_, ?_⟩ <;> intro a x <;>
    simp only [TransferNode.takeFrom, setContainer_containerData,
      setContainer_transferContainerData, setContainer_industryData,
      setContainer_transferData, setTransfer_containerData,
      setTransfer_transferContainerData, setTransfer_industryData,
      setTransfer_transferData] <;>
    (try split_ifs) <;>
    (try simp_all [Finset.mem_insert, h1, h2, h3, h4, h5, h6]) <;>
    tauto

/-- `outputTo` on an industry preserves edge symmetry. -/
theorem edgeSymmetric_indOutputTo (g : FactoryGraph) (u : IId) (c : CId)
    (h : EdgeSymmetric g) : EdgeSymmetric (IndustryNode.outputTo g u c) := by
  obtain ⟨h1, h2, h3, h4, h5, h6⟩ := h
  cases hout : (g.industryData u).output with
  | none =>
      refine ⟨?_, ?_, ?_, ?_, ?_, ?_⟩ <;> intro a x <;>
        simp only [IndustryNode.outputTo, hout, setContainer_containerData,
          setContainer_transferContainerData, setContainer_industryData,
          setContainer_transferData, setIndustry_containerData,
          setIndustry_transferContainerData, setIndustry_industryData,
          setIndustry_transferData] <;>
        (try split_ifs) <;>
        (try simp_all [Finset.mem_insert, h1, h2, h3, h4, h5, h6]) <;>
        tauto
  | some old =>
      refine ⟨?_, ?_, ?_, ?_, ?_, ?_⟩ <;> intro a x <;>
        simp only [IndustryNode.outputTo, hout, setContainer_containerData,
          setContainer_transferContainerData, setContainer_industryData,
          setContainer_transferData, setIndustry_containerData,
          setIndustry_transferContainerData, setIndustry_industryData,
          setIndustry_transferData] <;>
        (try split_ifs) <;>
        (try simp_all [Finset.mem_insert, Finset.mem_erase, h1, h2, h3, h4, h5, h6]) <;>
        tauto

/-- `outputTo` on a transfer unit preserves edge symmetry. -/
theorem edgeSymmetric_trOutputTo (g : FactoryGraph) (t : TId) (b : BufRef)
    (h : EdgeSymmetric g) : EdgeSymmetric (TransferNode.outputTo g t b) := by
  obtain ⟨h1, h2, h3, h4, h5, h6⟩ := h
  cases b with
  | single c =>
      cases hout : (g.transferData t).output with
      | none =>
          refine ⟨?_, ?_, ?_, ?_, ?_, ?_⟩ <;> intro a x <;>
            simp only [TransferNode.outputTo, hout, setContainer_containerData,
              setContainer_transferContainerData, setContainer_industryData,
              setContainer_transferData, setTransferContainer_containerData,
              setTransferContainer_transferContainerData,
              setTransferContainer_industryData, setTransferContainer_transferData,
              setTransfer_containerData, setTransfer_transferContainerData,
              setTransfer_industryData, setTransfer_transferData] <;>
            (try split_ifs) <;>
            (try simp_all [Finset.mem_insert, Finset.mem_erase, h1, h2, h3, h4, h5, h6]) <;>
            tauto
      | some oldb =>
          cases oldb with
          | single old =>
              refine ⟨?_, ?_, ?_, ?_, ?_, ?_⟩ <;> intro a x <;>
                simp only [TransferNode.outputTo, hout, setContainer_containerData,
                  setContainer_transferContainerData, setContainer_industryData,
                  setContainer_transferData, setTransferContainer_containerData,
                  setTransferContainer_transferContainerData,
                  setTransferContainer_industryData, setTransferContainer_transferData,
                  setTransfer_containerData, setTransfer_transferContainerData,
                  setTransfer_industryData, setTransfer_transferData] <;>
                (try split_ifs) <;>
                (try simp_all [Finset.mem_insert, Finset.mem_erase, h1, h2, h3, h4, h5, h6]) <;>
                tauto
          | multi old =>
              refine ⟨?_, ?_, ?_, ?_, ?_, ?_⟩ <;> intro a x <;>
                simp only [TransferNode.outputTo, hout, setContainer_containerData,
                  setContainer_transferContainerData, setContainer_industryData,
                  setContainer_transferData, setTransferContainer_containerData,
                  setTransferContainer_transferContainerData,
                  setTransferContainer_industryData, setTransferContainer_transferData,
                  setTransfer_containerData, setTransfer_transferContainerData,
                  setTransfer_industryData, setTransfer_transferData] <;>
                (try split_ifs) <;>
                (try simp_all [Finset.mem_insert, Finset.mem_erase, h1, h2, h3, h4, h5, h6]) <;>
                tauto
  | multi tc =>
      cases hout : (g.transferData t).output with
      | none =>
          refine ⟨?_, ?_, ?_, ?_, ?_, ?_⟩ <;> intro a x <;>
            simp only [TransferNode.outputTo, hout, setContainer_containerData,
              setContainer_transferContainerData, setContainer_industryData,
              setContainer_transferData, setTransferContainer_containerData,
              setTransferContainer_transferContainerData,
              setTransferContainer_industryData, setTransferContainer_transferData,
              setTransfer_containerData, setTransfer_transferContainerData,
              setTransfer_industryData, setTransfer_transferData] <;>
            (try split_ifs) <;>
            (try simp_all [Finset.mem_insert, Finset.mem_erase, h1, h2, h3, h4, h5, h6]) <;>
            tauto
      | some oldb =>
          cases oldb with
          | single old =>
              refine ⟨?_, ?_, ?_, ?_, ?_, ?_⟩ <;> intro a x <;>
                simp only [TransferNode.outputTo, hout, setContainer_containerData,
                  setContainer_transferContainerData, setContainer_industryData,
                  setContainer_transferData, setTransferContainer_containerData,
                  setTransferContainer_transferContainerData,
                  setTransferContainer_industryData, setTransferContainer_transferData,
                  setTransfer_containerData, setTransfer_transferContainerData,
                  setTransfer_industryData, setTransfer_transferData] <;>
                (try split_ifs) <;>
                (try simp_all [Finset.mem_insert, Finset.mem_erase, h1, h2, h3, h4, h5, h6]) <;>
                tauto
          | multi old =>
              refine ⟨?_, ?_, ?_, ?_, ?_, ?_⟩ <;> intro a x <;>
                simp only [TransferNode.outputTo, hout, setContainer_containerData,
                  setContainer_transferContainerData, setContainer_industryData,
                  setContainer_transferData, setTransferContainer_containerData,
                  setTransferContainer_transferContainerData,
                  setTransferContainer_industryData, setTransferContainer_transferData,
                  setTransfer_containerData, setTransfer_transferContainerData,
                  setTransfer_industryData, setTransfer_transferData] <;>
                (try split_ifs) <;>
                (try simp_all [Finset.mem_insert, Finset.mem_erase, h1, h2, h3, h4, h5, h6]) <;>
                tauto

/-- Every wiring operation preserves edge symmetry. -/
theorem edgeSymmetric_applyOp (g : FactoryGraph) (op : WireOp)
    (h : EdgeSymmetric g) : EdgeSymmetric (applyOp g op) := by
  cases op with
  | indTakeFrom u b => exact edgeSymmetric_indTakeFrom g u b h
  | indOutputTo u c => exact edgeSymmetric_indOutputTo g u c h
  | trTakeFrom t c => exact edgeSymmetric_trTakeFrom g t c h
  | trOutputTo t b => exact edgeSymmetric_trOutputTo g t b h

/-- The initial graph is trivially edge-symmetric. -/
theorem edgeSymmetric_emptyFactory : EdgeSymmetric emptyFactory := by
  refine ⟨?_, ?_, ?_, ?_, ?_, ?_⟩ <;> intro a x <;> simp [emptyFactory]


/-- C4: edge symmetry is an invariant of every reachable graph state — after
any sequence of takeFrom/outputTo wiring operations from the initial graph,
a unit is among a buffer's producers iff the buffer is the unit's current
output, and among its consumers iff the buffer is in the unit's inputs. -/
theorem claim_C4_edge_symmetry_invariant (ops : List WireOp) :
    EdgeSymmetric (applyOps emptyFactory ops) := by
  have key : ∀ (l : List WireOp) (g : FactoryGraph), EdgeSymmetric g →
      EdgeSymmetric (applyOps g l) := by
    intro l
    induction l with
    | nil => intro g hg; exact hg
    | cons op l ih =>
        intro g hg
        exact ih (applyOp g op) (edgeSymmetric_applyOp g op hg)
  exact key ops emptyFactory edgeSymmetric_emptyFactory

/-- Membership of a transfer unit in the producer set of a buffer of either
kind (`ContainerNode.producers`, graph.ts 29; `TransferContainerNode.producers`,
graph.ts 187). -/
def TransferNode.isProducerOf (g : FactoryGraph) (t : TId) : BufRef → Prop
  | BufRef.single c => UnitRef.tr t ∈ (g.containerData c).producers
  | BufRef.multi tc => t ∈ (g.transferContainerData tc).producers

/-- `incomingLinkCount` of a buffer of either kind (graph.ts 53-55 and
200-202). -/
def bufIncomingLinkCount (g : FactoryGraph) : BufRef → ℕ
  | BufRef.single c => ContainerNode.incomingLinkCount g c
  | BufRef.multi tc => TransferContainerNode.incomingLinkCount g tc

/-- C5: reassigning a production or relay unit's output from buffer A to a
distinct buffer B (with the unit a producer of A and not of B) removes the
unit from A's producers and adds it to B's, so A's incomingLinkCount drops
by exactly one and B's grows by exactly one; for a relay unit A and B may
each be a single-item or a multi-item buffer. -/
theorem claim_C5_output_reassignment (g : FactoryGraph) :
    (∀ u a b, (g.industryData u).output = some a →
      UnitRef.ind u ∈ (g.containerData a).producers →
      b ≠ a →
      UnitRef.ind u ∉ (g.containerData b).producers →
      ContainerNode.incomingLinkCount (IndustryNode.outputTo g u b) a + 1 =
        ContainerNode.incomingLinkCount g a ∧
      ContainerNode.incomingLinkCount (IndustryNode.outputTo g u b) b =
        ContainerNode.incomingLinkCount g b + 1 ∧
      UnitRef.ind u ∉ ((IndustryNode.outputTo g u b).containerData a).producers ∧
      UnitRef.ind u ∈ ((IndustryNode.outputTo g u b).containerData b).producers) ∧
    (∀ t (a b : BufRef), (g.transferData t).output = some a →
      TransferNode.isProducerOf g t a →
      b ≠ a →
      ¬TransferNode.isProducerOf g t b →
      bufIncomingLinkCount (TransferNode.outputTo g t b) a + 1 =
        bufIncomingLinkCount g a ∧
      bufIncomingLinkCount (TransferNode.outputTo g t b) b =
        bufIncomingLinkCount g b + 1 ∧
      ¬TransferNode.isProducerOf (TransferNode.outputTo g t b) t a ∧
      TransferNode.isProducerOf (TransferNode.outputTo g t b) t b) := by
  constructor
  · intro u a b hout hmem hne hnot
    have hba : ¬a = b := fun h => hne h.symm
    have hcards : ContainerNode.incomingLinkCount (IndustryNode.outputTo g u b) a =
        ((g.containerData a).producers.erase (UnitRef.ind u)).card := by
      simp [ContainerNode.incomingLinkCount, IndustryNode.outputTo, hout, hba]
    refine ⟨?_, ?_, ?_, ?_⟩
    · rw [hcards]
      exact Finset.card_erase_add_one hmem
    · simp [ContainerNode.incomingLinkCount, IndustryNode.outputTo, hout, hba, hne,
        Finset.card_insert_of_not_mem hnot]
    · simp [IndustryNode.outputTo, hout, hba, hne, hmem, hnot]
    · simp [IndustryNode.outputTo, hout, hba, hne]
  · intro t a b hout hmem hne hnot
    cases a with
    | single ca =>
        cases b with
        | single cb =>
            have hcb : ¬ca = cb :=
              fun h => hne (congrArg BufRef.single h.symm)
            have hbc : ¬cb = ca :=
              fun h => hne (congrArg BufRef.single h)
            simp only [TransferNode.isProducerOf, bufIncomingLinkCount] at hmem hnot ⊢
            have hcards : ContainerNode.incomingLinkCount
                (TransferNode.outputTo g t (BufRef.single cb)) ca =
                ((g.containerData ca).producers.erase (UnitRef.tr t)).card := by
              simp [ContainerNode.incomingLinkCount, TransferNode.outputTo, hout, hcb]
            refine ⟨?_, ?_, ?_, ?_⟩
            · rw [hcards]
              exact Finset.card_erase_add_one hmem
            · simp [ContainerNode.incomingLinkCount, TransferNode.outputTo, hout, hcb,
                hbc, Finset.card_insert_of_not_mem hnot]
            · simp [TransferNode.outputTo, hout, hcb, hbc, hmem, hnot]
            · simp [TransferNode.outputTo, hout, hcb, hbc]
        | multi tcb =>
            simp only [TransferNode.isProducerOf, bufIncomingLinkCount] at hmem hnot ⊢
            refine ⟨?_, ?_, ?_, ?_⟩
            · have hcards : ContainerNode.incomingLinkCount
                  (TransferNode.outputTo g t (BufRef.multi tcb)) ca =
                  ((g.containerData ca).producers.erase (UnitRef.tr t)).card := by
                simp [ContainerNode.incomingLinkCount, TransferNode.outputTo, hout]
              rw [hcards]
              exact Finset.card_erase_add_one hmem
            · simp [TransferContainerNode.incomingLinkCount, TransferNode.outputTo,
                hout, Finset.card_insert_of_not_mem hnot]
            · simp [TransferNode.outputTo, hout]
            · simp [TransferNode.outputTo, hout]
    | multi tca =>
        cases b with
        | single cb =>
            simp only [TransferNode.isProducerOf, bufIncomingLinkCount] at hmem hnot ⊢
            refine ⟨?_, ?_, ?_, ?_⟩
            · have hcards : TransferContainerNode.incomingLinkCount
                  (TransferNode.outputTo g t (BufRef.single cb)) tca =
                  ((g.transferContainerData tca).producers.erase t).card := by
                simp [TransferContainerNode.incomingLinkCount, TransferNode.outputTo,
                  hout]
              rw [hcards]
              exact Finset.card_erase_add_one hmem
            · simp [ContainerNode.incomingLinkCount, TransferNode.outputTo, hout,
                Finset.card_insert_of_not_mem hnot]
            · simp [TransferNode.outputTo, hout]
            · simp [TransferNode.outputTo, hout]
        | multi tcb =>
            have htcb : ¬tca = tcb :=
              fun h => hne (congrArg BufRef.multi h.symm)
            have htcb2 : ¬tcb = tca :=
              fun h => hne (congrArg BufRef.multi h)
            simp only [TransferNode.isProducerOf, bufIncomingLinkCount] at hmem hnot ⊢
            have hcards : TransferContainerNode.incomingLinkCount
                (TransferNode.outputTo g t (BufRef.multi tcb)) tca =
                ((g.transferContainerData tca).producers.erase t).card := by
              simp [TransferContainerNode.incomingLinkCount, TransferNode.outputTo,
                hout, htcb]
            refine ⟨?_, ?_, ?_, ?_⟩
            · rw [hcards]
              exact Finset.card_erase_add_one hmem
            · simp [TransferContainerNode.incomingLinkCount, TransferNode.outputTo,
                hout, htcb, htcb2, Finset.card_insert_of_not_mem hnot]
            · simp [TransferNode.outputTo, hout, htcb, htcb2, hmem, hnot]
            · simp [TransferNode.outputTo, hout, htcb, htcb2]

/-- A graph where industry 0 and transfer unit 0 both output to container 0
and are recorded among its producers; container 1 has no producers. -/
def gReassign : FactoryGraph :=
  { emptyFactory with
    containerData := fun x =>
      if x = 0 then ⟨itemA, 1, {UnitRef.ind 0, UnitRef.tr 0}, ∅⟩
      else ⟨itemA, 1, ∅, ∅⟩
    industryData := fun _ => ⟨recipeA, ∅, some 0⟩
    transferData := fun _ => ⟨itemA, ∅, some (BufRef.single 0)⟩ }

/-- A graph where transfer unit 0 outputs to multi-item buffer 0 and is
recorded among its producers; multi-item buffer 1 has no producers. -/
def gReassignMulti : FactoryGraph :=
  { emptyFactory with
    transferContainerData := fun x =>
      if x = 0 then ⟨[itemA], {0}, ∅⟩ else ⟨[itemA], ∅, ∅⟩
    transferData := fun _ => ⟨itemA, ∅, some (BufRef.multi 0)⟩ }

/-- Witness for C5: reassigning industry 0 of `gReassign` from container 0
to container 1, transfer unit 0 of `gReassign` between the same single-item
buffers, and transfer unit 0 of `gReassignMulti` between two multi-item
buffers, each moves exactly one producer link. -/
theorem claim_C5_witness :
    (ContainerNode.incomingLinkCount (IndustryNode.outputTo gReassign 0 1) 0 + 1 =
      ContainerNode.incomingLinkCount gReassign 0 ∧
    ContainerNode.incomingLinkCount (IndustryNode.outputTo gReassign 0 1) 1 =
      ContainerNode.incomingLinkCount gReassign 1 + 1 ∧
    UnitRef.ind 0 ∉ ((IndustryNode.outputTo gReassign 0 1).containerData 0).producers ∧
    UnitRef.ind 0 ∈ ((IndustryNode.outputTo gReassign 0 1).containerData 1).producers) ∧
    (bufIncomingLinkCount (TransferNode.outputTo gReassign 0 (BufRef.single 1))
        (BufRef.single 0) + 1 =
      bufIncomingLinkCount gReassign (BufRef.single 0) ∧
    bufIncomingLinkCount (TransferNode.outputTo gReassign 0 (BufRef.single 1))
        (BufRef.single 1) =
      bufIncomingLinkCount gReassign (BufRef.single 1) + 1 ∧
    ¬TransferNode.isProducerOf (TransferNode.outputTo gReassign 0 (BufRef.single 1))
        0 (BufRef.single 0) ∧
    TransferNode.isProducerOf (TransferNode.outputTo gReassign 0 (BufRef.single 1))
        0 (BufRef.single 1)) ∧
    (bufIncomingLinkCount (TransferNode.outputTo gReassignMulti 0 (BufRef.multi 1))
        (BufRef.multi 0) + 1 =
      bufIncomingLinkCount gReassignMulti (BufRef.multi 0) ∧
    bufIncomingLinkCount (TransferNode.outputTo gReassignMulti 0 (BufRef.multi 1))
        (BufRef.multi 1) =
      bufIncomingLinkCount gReassignMulti (BufRef.multi 1) + 1 ∧
    ¬TransferNode.isProducerOf
        (TransferNode.outputTo gReassignMulti 0 (BufRef.multi 1)) 0 (BufRef.multi 0) ∧
    TransferNode.isProducerOf
        (TransferNode.outputTo gReassignMulti 0 (BufRef.multi 1)) 0 (BufRef.multi 1)) :=
  ⟨(claim_C5_output_reassignment gReassign).1 0 0 1 rfl (by decide) (by decide)
      (by decide),
    (claim_C5_output_reassignment gReassign).2 0 (BufRef.single 0) (BufRef.single 1)
      rfl (by simp [TransferNode.isProducerOf, gReassign, emptyFactory]) (by decide)
      (by simp [TransferNode.isProducerOf, gReassign, emptyFactory]),
    (claim_C5_output_reassignment gReassignMulti).2 0 (BufRef.multi 0) (BufRef.multi 1)
      rfl (by simp [TransferNode.isProducerOf, gReassignMulti, emptyFactory])
      (by decide)
      (by simp [TransferNode.isProducerOf, gReassignMulti, emptyFactory])⟩

/-! ### C9: the only error source of the queries is the empty tier catalog
(and, per §7, a missing recipe — excluded here by the well-formed-catalog
precondition) -/

/-- `optSum` yields a value when every contribution does. -/
theorem optSum_isSome {α : Type} {s : Finset α} {f : α → Option ℚ}
    (h : ∀ a ∈ s, (f a).isSome) : (optSum s f).isSome := by
  unfold optSum
  rw [if_pos h]
  rfl

/-- `optSumL` yields a value when every contribution does. -/
theorem optSumL_isSome {α : Type} {l : List α} {f : α → Option ℚ}
    (h : ∀ a ∈ l, (f a).isSome) : (optSumL l f).isSome := by
  unfold optSumL
  rw [if_pos h]
  rfl

/-- `getInput` never throws when the industry's item has a recipe. -/
theorem getInput_isSome {cat : Catalog} {g : FactoryGraph} {u : IId}
    (h : (cat.findRecipe (IndustryNode.item g u)).isSome) (i : Item) :
    (IndustryNode.getInput cat g u i).isSome := by
  obtain ⟨r, hr⟩ := Option.isSome_iff_exists.mp h
  unfold IndustryNode.getInput
  rw [hr]
  rfl

/-- `getOutput` never throws when the industry's item has a recipe. -/
theorem getOutput_isSome {cat : Catalog} {g : FactoryGraph} {u : IId}
    (h : (cat.findRecipe (IndustryNode.item g u)).isSome) (i : Item) :
    (IndustryNode.getOutput cat g u i).isSome := by
  obtain ⟨r, hr⟩ := Option.isSome_iff_exists.mp h
  unfold IndustryNode.getOutput
  rw [hr]
  rfl

/-- The per-container division yields a value when the outflow does and the
input set is non-empty. -/
theorem inflowAux_isSome {o : Option ℚ} {n : ℕ} (ho : o.isSome) (hn : n ≠ 0) :
    (inflowAux o n).isSome := by
  obtain ⟨q, hq⟩ := Option.isSome_iff_exists.mp ho
  subst hq
  simp [inflowAux, hn]

/-- The downstream step of the transfer-rate recursion: `t2` is a transfer
consumer of `t`'s output container. -/
def downstream (g : FactoryGraph) (t t2 : TId) : Prop :=
  ∃ c, (g.transferData t).output = some (BufRef.single c) ∧
    UnitRef.tr t2 ∈ (g.containerData c).consumers

/-- With a well-formed catalog, a ranking of the downstream relation (its
finite version of acyclicity) and non-empty transfer input sets, the outflow
computation terminates within any fuel beyond the transfer unit's rank. -/
theorem outflowRateF_isSome (cat : Catalog) (g : FactoryGraph) (rank : TId → ℕ)
    (hwf : ∀ u : IId, (cat.findRecipe (IndustryNode.item g u)).isSome)
    (hrank : ∀ t t2, downstream g t t2 → rank t2 < rank t)
    (hin : ∀ t : TId, ((g.transferData t).inputs).Nonempty) :
    ∀ fuel t, rank t < fuel → (TransferNode.outflowRateF cat g fuel t).isSome := by
  intro fuel
  induction fuel with
  | zero => intro t ht; exact absurd ht (Nat.not_lt_zero _)
  | succ n ih =>
      intro t ht
      have hcons : (match (g.transferData t).output with
          | none => some (0 : ℚ)
          | some (BufRef.single c) =>
              optSum (g.containerData c).consumers fun consumer =>
                match consumer with
                | UnitRef.ind u =>
                    IndustryNode.getInput cat g u (g.transferData t).item
                | UnitRef.tr t2 =>
                    inflowAux (TransferNode.outflowRateF cat g n t2)
                      (g.transferData t2).inputs.card
          | some (BufRef.multi tc) =>
              optSum (g.transferContainerData tc).consumers fun u =>
                IndustryNode.getInput cat g u (g.transferData t).item).isSome := by
        cases hout : (g.transferData t).output with
        | none => rfl
        | some b =>
            cases b with
            | single c =>
                apply optSum_isSome
                intro consumer hmem
                cases consumer with
                | ind u => exact getInput_isSome (hwf u) _
                | tr t2 =>
                    have hdown : downstream g t t2 := ⟨c, hout, hmem⟩
                    have ht2 : rank t2 < n :=
                      Nat.lt_of_lt_of_le (hrank t t2 hdown) (Nat.lt_succ_iff.mp ht)
                    exact inflowAux_isSome (ih t2 ht2)
                      (Finset.card_ne_zero_of_mem (hin t2).choose_spec)
            | multi tc =>
                apply optSum_isSome
                intro u hmem
                exact getInput_isSome (hwf u) _
      obtain ⟨v, hv⟩ := Option.isSome_iff_exists.mp hcons
      show (TransferNode.outflowRateF cat g (n + 1) t).isSome
      rw [TransferNode.outflowRateF]
      (try dsimp only)
      rw [hv]
      rfl

/-- With the same preconditions, `egress` always yields a value. -/
theorem egressF_isSome (cat : Catalog) (g : FactoryGraph) (rank : TId → ℕ)
    (fuel : ℕ)
    (hwf : ∀ u : IId, (cat.findRecipe (IndustryNode.item g u)).isSome)
    (hrank : ∀ t t2, downstream g t t2 → rank t2 < rank t)
    (hfuel : ∀ t : TId, rank t < fuel)
    (hin : ∀ t : TId, ((g.transferData t).inputs).Nonempty) (c : CId) :
    (ContainerNode.egressF cat g fuel c).isSome := by
  unfold ContainerNode.egressF
  apply optSum_isSome
  intro consumer hmem
  cases consumer with
  | ind u =>
      obtain ⟨q, hq⟩ := Option.isSome_iff_exists.mp (getInput_isSome (hwf u)
        (g.containerData c).item)
      simp only [hq]
      rfl
  | tr t =>
      by_cases hit : (g.transferData t).item = (g.containerData c).item
      · simp only [hit, if_pos rfl]
        exact inflowAux_isSome
          (outflowRateF_isSome cat g rank hwf hrank hin fuel t (hfuel t))
          (Finset.card_ne_zero_of_mem (hin t).choose_spec)
      · simp only [if_neg hit]
        rfl

/-- With the same preconditions, `ingress` always yields a value. -/
theorem ingressF_isSome (cat : Catalog) (g : FactoryGraph) (rank : TId → ℕ)
    (fuel : ℕ)
    (hwf : ∀ u : IId, (cat.findRecipe (IndustryNode.item g u)).isSome)
    (hrank : ∀ t t2, downstream g t t2 → rank t2 < rank t)
    (hfuel : ∀ t : TId, rank t < fuel)
    (hin : ∀ t : TId, ((g.transferData t).inputs).Nonempty) (c : CId) :
    (ContainerNode.ingressF cat g fuel c).isSome := by
  unfold ContainerNode.ingressF
  by_cases ho : (g.containerData c).item.isOre
  · simp [ho]
  · simp only [ho, Bool.false_eq_true, if_false]
    have hsum : (optSum (g.containerData c).producers fun producer =>
        match producer with
        | UnitRef.ind u => IndustryNode.getOutput cat g u (g.containerData c).item
        | UnitRef.tr t =>
            if (g.transferData t).item = (g.containerData c).item
            then TransferNode.outflowRateF cat g fuel t
            else some 0).isSome := by
      apply optSum_isSome
      intro producer hmem
      cases producer with
      | ind u => exact getOutput_isSome (hwf u) _
      | tr t =>
          by_cases hit : (g.transferData t).item = (g.containerData c).item
          · simp only [hit, if_pos rfl]
            exact outflowRateF_isSome cat g rank hwf hrank hin fuel t (hfuel t)
          · simp only [if_neg hit]
            rfl
    obtain ⟨q, hq⟩ := Option.isSome_iff_exists.mp hsum
    rw [hq]
    rfl

/-- With a well-formed catalog, `maintain` always yields a value. -/
theorem maintain_isSome (cat : Catalog) (g : FactoryGraph)
    (hwf : ∀ u : IId, (cat.findRecipe (IndustryNode.item g u)).isSome) (c : CId) :
    (ContainerNode.maintain cat g c).isSome := by
  unfold ContainerNode.maintain
  dsimp only
  have hsum : (optSum (g.containerData c).consumers fun consumer =>
      match consumer with
      | UnitRef.tr _ => some (0 : ℚ)
      | UnitRef.ind u =>
          (cat.findRecipe (IndustryNode.item g u)).map fun recipe =>
            recipe.ingredients.foldl
              (fun m ingredient =>
                if ingredient.item = (g.containerData c).item then
                  m + ingredient.quantity
                else m) 0).isSome := by
    apply optSum_isSome
    intro consumer hmem
    cases consumer with
    | tr t => rfl
    | ind u =>
        obtain ⟨r, hr⟩ := Option.isSome_iff_exists.mp (hwf u)
        simp only [hr]
        rfl
  obtain ⟨q, hq⟩ := Option.isSome_iff_exists.mp hsum
  rw [hq]
  rfl

/-- With a well-formed catalog, the multi-item required capacity always
yields a value. -/
theorem requiredCapacity_isSome (cat : Catalog) (g : FactoryGraph)
    (hwf : ∀ u : IId, (cat.findRecipe (IndustryNode.item g u)).isSome) (tc : TCId) :
    (TransferContainerNode.requiredCapacity cat g tc).isSome := by
  unfold TransferContainerNode.requiredCapacity
  dsimp only
  apply optSumL_isSome
  intro item hmem
  have hsum : (optSum (g.transferContainerData tc).consumers fun u =>
      (cat.findRecipe (IndustryNode.item g u)).map fun recipe =>
        recipe.ingredients.foldl
          (fun q ingredient =>
            if ingredient.item = item then q + ingredient.quantity else q)
          0).isSome := by
    apply optSum_isSome
    intro u hu
    obtain ⟨r, hr⟩ := Option.isSome_iff_exists.mp (hwf u)
    simp only [hr]
    rfl
  obtain ⟨q, hq⟩ := Option.isSome_iff_exists.mp hsum
  rw [hq]
  rfl

/-- With a well-formed catalog, `canAddOutgoingLinks` always yields a
value. -/
theorem canAddOutgoingLinks_isSome (cat : Catalog) (g : FactoryGraph)
    (c : CId) (n : ℕ)
    (hwfc : (g.containerData c).item.isOre = true ∨
      (cat.findRecipe (g.containerData c).item).isSome) :
    (ContainerNode.canAddOutgoingLinks cat g c n).isSome := by
  unfold ContainerNode.canAddOutgoingLinks
  by_cases hs : ContainerNode.isSplit g c
  · simp [hs]
  · by_cases ho : (g.containerData c).item.isOre
    · simp [hs, ho]
    · rcases hwfc with h | h
      · exact absurd h ho
      · obtain ⟨r, hr⟩ := Option.isSome_iff_exists.mp h
        simp [hs, ho, hr]

/-- C9 (amended): the `container` query of a storage node or multi-item
storage node errors exactly when the capacity-tier catalog is empty, and the
rate queries and link-capacity checks are total and never raise — PROVIDED
the catalog is well formed (recipes resolve), the transfer downstream
relation admits a ranking (no relay cycle through its output's consumers),
and every transfer unit has at least one input buffer.  Without those
provisos the claim is false: see the counterexample, where cyclic relay
wiring reachable through takeFrom/outputTo makes `egress` and `outflowRate`
recurse without bound. -/
theorem claim_C9_error_handling (cat : Catalog) (g : FactoryGraph)
    (rank : TId → ℕ) (fuel : ℕ)
    (hwf : ∀ u : IId, (cat.findRecipe (IndustryNode.item g u)).isSome)
    (hwfc : ∀ c : CId, (g.containerData c).item.isOre = true ∨
      (cat.findRecipe (g.containerData c).item).isSome)
    (hrank : ∀ t t2, downstream g t t2 → rank t2 < rank t)
    (hfuel : ∀ t : TId, rank t < fuel)
    (hin : ∀ t : TId, ((g.transferData t).inputs).Nonempty) :
    (∀ c, (ContainerNode.containerQ cat g c = none ↔
      cat.containersAscendingByCapacity = [])) ∧
    (∀ tc, (TransferContainerNode.containerQ cat g tc = none ↔
      cat.containersAscendingByCapacity = [])) ∧
    (∀ c, (ContainerNode.ingressF cat g fuel c).isSome) ∧
    (∀ c, (ContainerNode.egressF cat g fuel c).isSome) ∧
    (∀ u i, (IndustryNode.getInput cat g u i).isSome ∧
      (IndustryNode.getOutput cat g u i).isSome) ∧
    (∀ c n, (ContainerNode.canAddOutgoingLinks cat g c n).isSome) := by
  refine ⟨?_, ?_, ?_, ?_, ?_, ?_⟩
  · intro c
    cases hl : cat.containersAscendingByCapacity with
    | nil => simp [ContainerNode.containerQ, hl]
    | cons first rest =>
        obtain ⟨m, hm⟩ := Option.isSome_iff_exists.mp (maintain_isSome cat g hwf c)
        simp [ContainerNode.containerQ, hl, hm]
  · intro tc
    cases hl : cat.containersAscendingByCapacity with
    | nil => simp [TransferContainerNode.containerQ, hl]
    | cons first rest =>
        obtain ⟨r, hr⟩ :=
          Option.isSome_iff_exists.mp (requiredCapacity_isSome cat g hwf tc)
        simp [TransferContainerNode.containerQ, hl, hr]
  · exact ingressF_isSome cat g rank fuel hwf hrank hfuel hin
  · exact egressF_isSome cat g rank fuel hwf hrank hfuel hin
  · exact fun u i => ⟨getInput_isSome (hwf u) i, getOutput_isSome (hwf u) i⟩
  · exact fun c n => canAddOutgoingLinks_isSome cat g c n (hwfc c)

/-- Witness for C9 on a concrete well-formed graph: `gOneInput` with the
two-tier catalog, trivial ranking and fuel 1. -/
theorem claim_C9_witness :
    (ContainerNode.containerQ catTwoTiers gOneInput 0 = none ↔
      catTwoTiers.containersAscendingByCapacity = []) ∧
    (ContainerNode.ingressF catTwoTiers gOneInput 1 0).isSome ∧
    (ContainerNode.egressF catTwoTiers gOneInput 1 0).isSome ∧
    (IndustryNode.getInput catTwoTiers gOneInput 0 itemA).isSome ∧
    (ContainerNode.canAddOutgoingLinks catTwoTiers gOneInput 0 1).isSome := by
  have h := claim_C9_error_handling catTwoTiers gOneInput (fun _ => 0) 1
    (fun _ => rfl)
    (fun _ => Or.inr rfl)
    (by
      intro t t2 hd
      obtain ⟨c, hc, -⟩ := hd
      exact Option.noConfusion hc)
    (fun _ => Nat.one_pos)
    (fun _ => ⟨0, Finset.mem_singleton_self 0⟩)
  exact ⟨h.1 0, h.2.2.1 0, h.2.2.2.1 0, (h.2.2.2.2.1 0 itemA).1, h.2.2.2.2.2 0 1⟩

/-- Four wiring operations building a relay cycle: transfer unit 0 outputs
to container 0 and draws from container 1, transfer unit 1 draws from
container 0 and outputs to container 1. -/
def cycleOps : List WireOp :=
  [WireOp.trOutputTo 0 (BufRef.single 0), WireOp.trTakeFrom 1 0,
    WireOp.trOutputTo 1 (BufRef.single 1), WireOp.trTakeFrom 0 1]

/-- The cyclic graph reached from the initial graph by `cycleOps`. -/
def gCycle : FactoryGraph := applyOps emptyFactory cycleOps

/-- Transfer unit 0 of the cycle: one input (container 1), output
container 0. -/
theorem gCycle_transferData_zero :
    gCycle.transferData 0 = ⟨defaultItem, {1}, some (BufRef.single 0)⟩ := by
  decide

/-- Transfer unit 1 of the cycle: one input (container 0), output
container 1. -/
theorem gCycle_transferData_one :
    gCycle.transferData 1 = ⟨defaultItem, {0}, some (BufRef.single 1)⟩ := by
  decide

/-- Container 0 of the cycle: produced by transfer unit 0, consumed by
transfer unit 1. -/
theorem gCycle_containerData_zero :
    gCycle.containerData 0 = ⟨defaultItem, 1, {UnitRef.tr 0}, {UnitRef.tr 1}⟩ := by
  decide

/-- Container 1 of the cycle: produced by transfer unit 1, consumed by
transfer unit 0. -/
theorem gCycle_containerData_one :
    gCycle.containerData 1 = ⟨defaultItem, 1, {UnitRef.tr 1}, {UnitRef.tr 0}⟩ := by
  decide

/-- On the cyclic graph the outflow recursion never produces a value: each
additional unit of fuel is consumed by one hop around the cycle. -/
theorem outflowRateF_gCycle_none (fuel : ℕ) :
    TransferNode.outflowRateF catTwoTiers gCycle fuel 0 = none ∧
    TransferNode.outflowRateF catTwoTiers gCycle fuel 1 = none := by
  induction fuel with
  | zero => exact ⟨rfl, rfl⟩
  | succ n ih =>
      constructor
      · rw [TransferNode.outflowRateF]
        simp [gCycle_transferData_zero, gCycle_transferData_one,
          gCycle_containerData_zero, optSum, inflowAux, ih.2]
      · rw [TransferNode.outflowRateF]
        simp [gCycle_transferData_zero, gCycle_transferData_one,
          gCycle_containerData_one, optSum, inflowAux, ih.1]

/-- Counterexample to C9 as stated: the unconditional totality of the rate
queries fails.  On a graph reachable from the initial one by four wiring
operations (a relay cycle), `outflowRate` of transfer unit 0 and `egress` of
container 0 yield no value at any fuel — the embedded counterpart of the
unbounded recursion of graph.ts 430-450 on cyclic wiring. -/
theorem claim_C9_counterexample :
    gCycle = applyOps emptyFactory cycleOps ∧
    (¬∃ fuel, (TransferNode.outflowRateF catTwoTiers gCycle fuel 0).isSome) ∧
    (¬∃ fuel, (ContainerNode.egressF catTwoTiers gCycle fuel 0).isSome) := by
  refine ⟨rfl, ?_, ?_⟩
  · rintro ⟨fuel, hs⟩
    rw [(outflowRateF_gCycle_none fuel).1] at hs
    simp at hs
  · rintro ⟨fuel, hs⟩
    have h1 := (outflowRateF_gCycle_none fuel).2
    simp [ContainerNode.egressF, gCycle_containerData_zero, gCycle_transferData_one,
      optSum, TransferNode.inflowRatePerContainerF, inflowAux, h1] at hs

end DuFactory
